import Mathlib

set_option maxRecDepth 100000

/-!
Shallow embedding of git's trace facility (trace.c): environment-driven
destination resolution, trace-line construction and emission, the
monotonic-clock nanotime machine, performance reporting, and the
setup-report escaping routine.  Pure C functions become Lean functions;
the observable side effects of a call (getenv, clock reads, open/write/
close, stderr diagnostics) are recorded as an explicit list of `Effect`s,
and static process state (the clock offset, the command timer) is passed
explicitly.  All machine integers are modelled as `Nat` with explicit
`% 2^64` where uint64 overflow matters.
-/

/-! ### Basic character/string utilities (ASCII, as in the C runtime) -/

/-- Decimal digit character, as written by the C printf engine. -/
def digitChar : Nat → Char
  | 0 => '0' | 1 => '1' | 2 => '2' | 3 => '3' | 4 => '4'
  | 5 => '5' | 6 => '6' | 7 => '7' | 8 => '8' | 9 => '9'
  | _ => '?'

/-- Reversed decimal digits of `n` (fuel-based so the kernel can reduce it). -/
def natDigitsRev : Nat → Nat → List Char
  | 0, _ => []
  | fuel + 1, n =>
    if n < 10 then [digitChar n]
    else digitChar (n % 10) :: natDigitsRev fuel (n / 10)

/-- Decimal rendering of a natural number (enough fuel for < 10^40). -/
def natStr (n : Nat) : String :=
  String.mk (natDigitsRev 40 n).reverse

/-- Zero-padded decimal rendering to width `w`, as C's `%0wd`. -/
def padNat (w n : Nat) : String :=
  let d := (natDigitsRev 40 n).reverse
  String.mk (List.replicate (w - d.length) '0' ++ d)

/-- ASCII lower-casing of one character, as C `tolower` in the C locale. -/
def lowerChar (c : Char) : Char :=
  if 'A' ≤ c && c ≤ 'Z' then Char.ofNat (c.toNat + 32) else c

/-- ASCII lower-casing of a string. -/
def lowerStr (s : String) : String :=
  String.mk (s.data.map lowerChar)

/-- Case-insensitive string equality: `strcasecmp(a, b) == 0`. -/
def strcaseEq (a b : String) : Bool :=
  lowerStr a == lowerStr b

/-- C `isdigit` on an ASCII character. -/
def isdigitC (c : Char) : Bool :=
  '0' ≤ c && c ≤ '9'

/-- First byte of a C string (`*s`); the NUL terminator if empty. -/
def firstChar (s : String) : Char :=
  s.data.headD '\x00'

/-- Number of newline characters in a string. -/
def countNL (s : String) : Nat :=
  s.data.countP (fun c => c == '\n')

/-! ### Observable effects of one trace call -/

/-- One observable side effect of a call into the trace facility, in
program order: an environment lookup, a clock read (gettimeofday or
clock_gettime), a printf-style formatting pass over caller arguments,
an `open` attempt on a path, a `write` attempt to a descriptor, a
`close`, or text printed directly to standard error. -/
inductive Effect where
  | envRead (key : String)
  | clockRead
  | fmtCall
  | openPath (p : String)
  | writeFd (fd : Nat) (data : String)
  | closeFd (fd : Nat)
  | errOut (s : String)
  deriving DecidableEq

/-- The ambient system a trace call runs against: the environment, the
outcome of `open(path, O_WRONLY|O_APPEND|O_CREAT, 0666)` (the allocated
descriptor, or `none` for failure), the `strerror(errno)` text for a
failed open, and whether the `write` of the line succeeds. -/
structure Sys where
  env : String → Option String
  openFd : String → Option Nat
  errnoMsg : String
  writeOk : Bool

/-- Result of `get_trace_fd`: the returned descriptor (`0` is the code's
sentinel for "tracing disabled"), the `*need_close` out-parameter, and
the effects performed. -/
structure FdResult where
  fd : Nat
  needClose : Bool
  effects : List Effect
  deriving DecidableEq

/-- Result of an emitting call: its effects and the resulting file
contents (only owned-file destinations change a file). -/
structure Emission where
  effects : List Effect
  fs : String → Option String

def STDERR_FILENO : Nat := 2

/-- Condition of trace.c lines 33-34 and 312-313: unset, empty, `"0"`,
or case-insensitive `"false"` means the key is disabled. -/
def disabledVal : Option String → Bool
  | none => true
  | some t => t == "" || t == "0" || strcaseEq t "false"

/-- `trace_want` (trace.c:308-316). -/
def trace_want (env : String → Option String) (key : String) : Bool :=
  !(disabledVal (env key))

/-- Modelled from the spec: `is_absolute_path` lives in path.c, which is
not part of src/; the spec says a file destination must be "an absolute
pathname (starting with /)". -/
def is_absolute_path (s : String) : Bool :=
  firstChar s == '/'

/-- `atoi` on the single-character strings the digit branch feeds it. -/
def atoi1 (s : String) : Nat :=
  (firstChar s).toNat - 48

/-- First line of the malformed-value diagnostic (trace.c:53). -/
def whatMsg (trace key : String) : String :=
  "What does \x27" ++ trace ++ "\x27 for " ++ key ++ " mean?\n"

/-- Second line of the malformed-value diagnostic (trace.c:54-56). -/
def adviceMsg (key : String) : String :=
  "If you want to trace into a file, then please set " ++ key ++
    " to an absolute pathname (starting with /).\n"

/-- Third line of the malformed-value diagnostic (trace.c:57). -/
def defaultingMsg : String :=
  "Defaulting to tracing on stderr...\n"

/-- The open-failure diagnostic (trace.c:43-46): a single fprintf whose
format string contains two newlines. -/
def couldNotOpenMsg (trace errnoMsg : String) : String :=
  "Could not open \x27" ++ trace ++ "\x27 for tracing: " ++ errnoMsg ++
    "\nDefaulting to tracing on stderr...\n"

/-- The whine text of trace.c:62-63, passed to `write_or_whine_pipe`. -/
def err_msg : String :=
  "Could not trace into fd given by GIT_TRACE environment variable"

/-- `get_trace_fd` (trace.c:29-60): classify the key's environment value
into a descriptor, following the code's ordered tests. -/
def get_trace_fd (sys : Sys) (key : String) : FdResult :=
  match sys.env key with
  | none => ⟨0, false, [.envRead key]⟩
  | some trace =>
    if trace == "" || trace == "0" || strcaseEq trace "false" then
      ⟨0, false, [.envRead key]⟩
    else if trace == "1" || strcaseEq trace "true" then
      ⟨STDERR_FILENO, false, [.envRead key]⟩
    else if trace.length == 1 && isdigitC (firstChar trace) then
      ⟨atoi1 trace, false, [.envRead key]⟩
    else if is_absolute_path trace then
      match sys.openFd trace with
      | some fd => ⟨fd, true, [.envRead key, .openPath trace]⟩
      | none => ⟨STDERR_FILENO, false,
          [.envRead key, .openPath trace,
           .errOut (couldNotOpenMsg trace sys.errnoMsg)]⟩
    else
      ⟨STDERR_FILENO, false,
        [.envRead key, .errOut (whatMsg trace key), .errOut (adviceMsg key),
         .errOut defaultingMsg]⟩

/-- Concatenated standard-error text of an effect list. -/
def stderrText : List Effect → String
  | [] => ""
  | .errOut s :: r => s ++ stderrText r
  | _ :: r => stderrText r

/-- Pointwise file-system update. -/
def setFile (fs : String → Option String) (p v : String) :
    String → Option String :=
  fun q => if q = p then some v else fs q

/-- `do_trace_print` (trace.c:66-78): resolve the destination, write the
buffer (`write_or_whine_pipe`, which whines to stderr on failure but is
not fatal — modelled from the spec for that external helper), and close
the descriptor when this call opened it.  A successful write to an
owned file appends to that file's contents; a failed write is modelled
as leaving the file unchanged. -/
def do_trace_print (sys : Sys) (fs : String → Option String)
    (key buf : String) : Emission :=
  let r := get_trace_fd sys key
  if r.fd = 0 then ⟨r.effects, fs⟩
  else
    let path := (sys.env key).getD ""
    let wr : List Effect :=
      if sys.writeOk then [.writeFd r.fd buf]
      else [.writeFd r.fd buf, .errOut err_msg]
    let fs' :=
      if r.needClose && sys.writeOk then
        setFile fs path ((fs path).getD "" ++ buf)
      else fs
    ⟨r.effects ++ wr ++ (if r.needClose then [.closeFd r.fd] else []), fs'⟩

/-- The one-character string holding decimal digit `d`. -/
def digitStr (d : Nat) : String :=
  String.mk [digitChar d]

/-! ### Line builder -/

/-- The local time-of-day fields `prepare_trace_line` reads via
`gettimeofday`/`localtime_r`. -/
structure Tod where
  hour : Nat
  min : Nat
  sec : Nat
  usec : Nat

/-- The timestamp of trace.c:96-97: `"%02d:%02d:%02d.%06ld "`. -/
def fmtTod (t : Tod) : String :=
  padNat 2 t.hour ++ ":" ++ padNat 2 t.min ++ ":" ++ padNat 2 t.sec ++
    "." ++ padNat 6 t.usec ++ " "

/-- The `"%s:%d "` source-location tag of trace.c:101, present only in
builds with variadic macros (`none` models the other build). -/
def fmtLoc : Option (String × Nat) → String
  | none => ""
  | some (f, l) => f ++ ":" ++ natStr l ++ " "

/-- The newline normalization of `print_trace_line` (trace.c:110-111):
append a newline iff the buffer is non-empty and does not already end
in one. -/
def fix_newline (buf : String) : String :=
  match buf.data.getLast? with
  | some c => if c ≠ '\n' then buf ++ "\n" else buf
  | none => buf

/-- Count of consecutive newlines ending a character list (from the
head, applied to reversed data). -/
def trailNLAux : List Char → Nat
  | [] => 0
  | c :: r => if c = '\n' then trailNLAux r + 1 else 0

/-- Number of trailing newline characters of a string. -/
def trailNL (s : String) : Nat :=
  trailNLAux s.data.reverse

def GIT_TRACE_PERFORMANCE : String := "GIT_TRACE_PERFORMANCE"

/-- Modelled from the spec: `sq_quote_argv` (quote.c) is not part of
src/; the spec says each argument is rendered so that re-parsing by a
POSIX-compatible shell reproduces it exactly, arguments separated by
spaces. Wrap each argument in single quotes, escaping embedded single
quotes, with a space before each argument. -/
def sq_quote_one (c : Char) : List Char :=
  if c = '\x27' then ['\x27', '\\', '\x27', '\x27'] else [c]

/-- Shell-quote a single argument (see `sq_quote_one`). -/
def sq_quote (s : String) : String :=
  "\x27" ++ String.mk ((s.data.map sq_quote_one).flatten) ++ "\x27"

/-- Shell-quote an argument vector, a space before each argument. -/
def sq_quote_argv (argv : List String) : String :=
  String.join (argv.map (fun a => " " ++ sq_quote a))

/-- `trace_vprintf_fl` (trace.c:117-127) together with
`prepare_trace_line` (trace.c:80-105) and `print_trace_line`
(trace.c:107-115): if the key is inactive, only the environment lookup
happens; otherwise the line is timestamp, optional location tag and
the rendered caller message (`msg` stands for the result of
`strbuf_vaddf`, whose formatting pass is the `fmtCall` effect),
newline-normalized and emitted. -/
def trace_vprintf_fl (sys : Sys) (fs : String → Option String) (now : Tod)
    (loc : Option (String × Nat)) (key msg : String) : Emission :=
  if trace_want sys.env key then
    let line := fix_newline (fmtTod now ++ fmtLoc loc ++ msg)
    let e := do_trace_print sys fs key line
    ⟨[.envRead key, .clockRead, .fmtCall] ++ e.effects, e.fs⟩
  else ⟨[.envRead key], fs⟩

/-- `trace_strbuf_fl` (trace.c:144-154): like `trace_vprintf_fl` but the
payload is copied verbatim from the caller's buffer (no formatting
pass). -/
def trace_strbuf_fl (sys : Sys) (fs : String → Option String) (now : Tod)
    (loc : Option (String × Nat)) (key data : String) : Emission :=
  if trace_want sys.env key then
    let line := fix_newline (fmtTod now ++ fmtLoc loc ++ data)
    let e := do_trace_print sys fs key line
    ⟨[.envRead key, .clockRead] ++ e.effects, e.fs⟩
  else ⟨[.envRead key], fs⟩

/-- `trace_argv_vprintf_fl` (trace.c:129-142): fixed key "GIT_TRACE",
message followed by the shell-quoted argument vector. -/
def trace_argv_vprintf_fl (sys : Sys) (fs : String → Option String)
    (now : Tod) (loc : Option (String × Nat)) (argv : List String)
    (msg : String) : Emission :=
  if trace_want sys.env "GIT_TRACE" then
    let line := fix_newline
      (fmtTod now ++ fmtLoc loc ++ msg ++ sq_quote_argv argv)
    let e := do_trace_print sys fs "GIT_TRACE" line
    ⟨[.envRead "GIT_TRACE", .clockRead, .fmtCall] ++ e.effects, e.fs⟩
  else ⟨[.envRead "GIT_TRACE"], fs⟩

/-- `trace_printf` (trace.c:179-185). -/
def trace_printf (sys : Sys) (fs : String → Option String) (now : Tod)
    (msg : String) : Emission :=
  trace_vprintf_fl sys fs now none "GIT_TRACE" msg

/-- `trace_printf_key` (trace.c:187-193). -/
def trace_printf_key (sys : Sys) (fs : String → Option String) (now : Tod)
    (key msg : String) : Emission :=
  trace_vprintf_fl sys fs now none key msg

/-- `trace_argv_printf` (trace.c:195-201). -/
def trace_argv_printf (sys : Sys) (fs : String → Option String) (now : Tod)
    (argv : List String) (msg : String) : Emission :=
  trace_argv_vprintf_fl sys fs now none argv msg

/-- `trace_strbuf` (trace.c:203-206). -/
def trace_strbuf (sys : Sys) (fs : String → Option String) (now : Tod)
    (key data : String) : Emission :=
  trace_strbuf_fl sys fs now none key data

/-! ### Clock -/

def U64 : Nat := 2 ^ 64

/-- uint64 subtraction `a - b` with wraparound (`a, b < 2^64`). -/
def sub64 (a b : Nat) : Nat :=
  (a + U64 - b) % U64

/-- One `getnanotime` call (trace.c:379-398): the returned nanosecond
value, the static `offset` after the call, and which clocks were read
(`readWall` = `gettimeofday_nanos`, `readMono` = `highres_nanos`). -/
structure GnRes where
  ret : Nat
  offset : Nat
  readWall : Bool
  readMono : Bool
  deriving DecidableEq

/-- `getnanotime` as a step function of the static `offset` and of what
the two clocks would read during this call.  `offset > 1`: calibrated,
return `offset + highres_nanos()` (uint64 addition).  `offset == 1`:
calibration failed, fall back to `gettimeofday_nanos()`.  `offset == 0`:
calibrate — read both clocks, persist `now - highres` if the monotonic
value is non-zero, else persist the failure sentinel 1; return the
wall-clock value either way. -/
def getnanotime_step (offset wall mono : Nat) : GnRes :=
  if 1 < offset then ⟨(offset + mono) % U64, offset, false, true⟩
  else if offset = 1 then ⟨wall, 1, true, false⟩
  else if mono ≠ 0 then ⟨wall, sub64 wall mono, true, true⟩
  else ⟨wall, 1, true, true⟩

/-- The clock-read effects of one `getnanotime` call. -/
def gnEffects (g : GnRes) : List Effect :=
  (if g.readWall then [Effect.clockRead] else []) ++
    (if g.readMono then [Effect.clockRead] else [])

/-! ### IEEE-754 binary64 model for the performance payload

`trace_performance_vfl` renders `(double) nanos / 1000000000` with
`"%.9f"`.  The uint64-to-double conversion and the division each round
to nearest (ties to even) on the 53-bit-significand grid, and the C
library prints the correctly rounded 9-fractional-digit decimal of the
resulting (exact, dyadic) double.  All three roundings are modelled
exactly with natural-number arithmetic. -/

/-- A dyadic rational `m * 2^e` (a finite double value). -/
structure Dbl where
  m : Nat
  e : Int
  deriving DecidableEq

/-- Round `num/den` (with `den > 0`) to the nearest integer, ties to
even. -/
def rhe (num den : Nat) : Nat :=
  let q := num / den
  let r := num % den
  if 2 * r < den then q
  else if den < 2 * r then q + 1
  else if q % 2 = 0 then q else q + 1

/-- Fuel-based floor of log2 (kernel-reducible). -/
def log2fuel : Nat → Nat → Nat
  | 0, _ => 0
  | f + 1, n => if n ≤ 1 then 0 else log2fuel f (n / 2) + 1

/-- Round the positive rational `a/b` to the binary64 grid: find the
exponent `e` with `2^52 ≤ (a/b) / 2^e < 2^53` and round the scaled
significand to nearest, ties to even.  (Valid for the normal range,
which covers every value this file feeds it.) -/
def roundRatDbl (a b : Nat) : Dbl :=
  if a = 0 then ⟨0, 0⟩
  else
    let K := log2fuel 600 (a * 2 ^ 400 / b)
    let e : Int := (K : Int) - 452
    let m := if 0 ≤ e then rhe a (b * 2 ^ e.toNat) else rhe (a * 2 ^ (-e).toNat) b
    ⟨m, e⟩

/-- The C conversion `(double) nanos` of a uint64. -/
def natToDouble (n : Nat) : Dbl :=
  roundRatDbl n 1

/-- The C division `d / 1000000000` on doubles (correctly rounded). -/
def doubleDivPow9 (d : Dbl) : Dbl :=
  if d.m = 0 then ⟨0, 0⟩
  else if 0 ≤ d.e then roundRatDbl (d.m * 2 ^ d.e.toNat) (10 ^ 9)
  else roundRatDbl d.m (10 ^ 9 * 2 ^ (-d.e).toNat)

/-- The integer `round(v * 10^9)` (ties to even) that `"%.9f"` prints
for the exact dyadic value `v`. -/
def printf9Int (d : Dbl) : Nat :=
  if 0 ≤ d.e then d.m * 2 ^ d.e.toNat * 10 ^ 9
  else rhe (d.m * 10 ^ 9) (2 ^ (-d.e).toNat)

/-- Decimal fixed-point rendering with exactly 9 fractional digits of
the rational `n / 10^9`. -/
def render9 (n : Nat) : String :=
  natStr (n / 10 ^ 9) ++ "." ++ padNat 9 (n % 10 ^ 9)

/-- The text `"%.9f"` produces for the double `d`. -/
def printf9 (d : Dbl) : String :=
  render9 (printf9Int d)

/-- The payload built by `trace_performance_vfl` (trace.c:167-172):
`performance: <%.9f of (double)nanos/1e9> s`, then `": "` and the
rendered caller message only when a non-NULL, non-empty format string
was supplied. -/
def perf_payload (nanos : Nat) (fmt : Option String) (msg : String) : String :=
  "performance: " ++ printf9 (doubleDivPow9 (natToDouble nanos)) ++ " s" ++
    (match fmt with
     | some f => if f ≠ "" then ": " ++ msg else ""
     | none => "")

/-- `trace_performance_vfl` (trace.c:158-175). -/
def trace_performance_vfl (sys : Sys) (fs : String → Option String)
    (now : Tod) (loc : Option (String × Nat)) (nanos : Nat)
    (fmt : Option String) (msg : String) : Emission :=
  if trace_want sys.env GIT_TRACE_PERFORMANCE then
    let line := fix_newline
      (fmtTod now ++ fmtLoc loc ++ perf_payload nanos fmt msg)
    let e := do_trace_print sys fs GIT_TRACE_PERFORMANCE line
    ⟨[.envRead GIT_TRACE_PERFORMANCE, .clockRead, .fmtCall] ++ e.effects,
      e.fs⟩
  else ⟨[.envRead GIT_TRACE_PERFORMANCE], fs⟩

/-- `trace_performance` (trace.c:208-215): report an already-computed
duration, then `return getnanotime()` — the trailing clock call happens
whether or not the key is active.  Returns the emission, the returned
timestamp, and the clock offset after the call. -/
def trace_performance (sys : Sys) (fs : String → Option String) (now : Tod)
    (offset wall mono nanos : Nat) (fmt : Option String) (msg : String) :
    Emission × Nat × Nat :=
  let e := trace_performance_vfl sys fs now none nanos fmt msg
  let g := getnanotime_step offset wall mono
  (⟨e.effects ++ gnEffects g, e.fs⟩, g.ret, g.offset)

/-- `trace_performance_since` (trace.c:217-224): `getnanotime()` is
evaluated to compute the elapsed argument before the key is ever
consulted, and evaluated again for the return value. -/
def trace_performance_since (sys : Sys) (fs : String → Option String)
    (now : Tod) (offset w1 m1 w2 m2 start : Nat) (fmt : Option String)
    (msg : String) : Emission × Nat × Nat :=
  let g1 := getnanotime_step offset w1 m1
  let e := trace_performance_vfl sys fs now none (sub64 g1.ret start) fmt msg
  let g2 := getnanotime_step g1.offset w2 m2
  (⟨gnEffects g1 ++ e.effects ++ gnEffects g2, e.fs⟩, g2.ret, g2.offset)

/-! ### Command-level timing -/

/-- The static state behind `trace_command_performance`:
`command_start_time`, `command_line` (trace.c:400-401), plus the number
of exit hooks registered via `atexit`. -/
structure CmdPerf where
  commandStartTime : Nat
  commandLine : String
  hooks : Nat
  deriving DecidableEq

/-- `trace_command_performance` (trace.c:409-420): a no-op when the
performance key is inactive; otherwise `atexit` is registered only when
`command_start_time` is still zero, and then the command line and start
time are unconditionally (re)written from this call's argv and clock. -/
def trace_command_performance (sys : Sys) (offset wall mono : Nat)
    (argv : List String) (st : CmdPerf) : CmdPerf × Nat :=
  if trace_want sys.env GIT_TRACE_PERFORMANCE then
    let hooks := if st.commandStartTime = 0 then st.hooks + 1 else st.hooks
    let g := getnanotime_step offset wall mono
    (⟨g.ret, sq_quote_argv argv, hooks⟩, g.offset)
  else (st, offset)

/-- `print_command_performance_atexit` (trace.c:403-407): the exit hook
reports elapsed time since the recorded start, tagged with the recorded
command line. -/
def print_command_performance_atexit (sys : Sys)
    (fs : String → Option String) (now : Tod)
    (offset w1 m1 w2 m2 : Nat) (st : CmdPerf) : Emission × Nat × Nat :=
  trace_performance_since sys fs now offset w1 m1 w2 m2
    st.commandStartTime (some "git command:%s")
    ("git command:" ++ st.commandLine)

/-! ### The setup reporter's escaping routine -/

/-- The per-character expansion of `quote_crnl` (trace.c:268-276): the
one or two bytes stored for each input byte. -/
def pairEsc (c : Char) : Char × Option Char :=
  if c = '\\' then ('\\', some '\\')
  else if c = '\n' then ('\\', some 'n')
  else if c = '\r' then ('\\', some 'r')
  else (c, none)

/-- The escaped bytes for one input byte, as a list. -/
def escChars (c : Char) : List Char :=
  match pairEsc c with
  | (a, none) => [a]
  | (a, some b) => [a, b]

/-- The full escaped output for an input byte sequence. -/
def escOut (p : List Char) : List Char :=
  (p.map escChars).flatten

/-- Length of the escaped output. -/
def escLen (p : List Char) : Nat :=
  (escOut p).length

/-- The three bytes `quote_crnl` expands to two output bytes. -/
def isSpecialC (c : Char) : Bool :=
  c = '\\' || c = '\n' || c = '\r'

/-- The sequence of stores `(index, byte)` the `quote_crnl` loop and its
final NUL-termination perform into `new_path`, starting at index `i`
(trace.c:268-278).  There is no bounds check: indices simply grow. -/
def quote_crnl_stores : List Char → Nat → List (Nat × Char)
  | [], i => [(i, '\x00')]
  | c :: cs, i =>
    match pairEsc c with
    | (a, none) => (i, a) :: quote_crnl_stores cs (i + 1)
    | (a, some b) => (i, a) :: (i + 1, b) :: quote_crnl_stores cs (i + 2)

/-- `quote_crnl` (trace.c:259-280) as a function: NULL propagates to
NULL (trace.c:265-266), otherwise the escaped string. -/
def quote_crnl : Option (List Char) → Option (List Char)
  | none => none
  | some p => some (escOut p)

/-- The size of `new_path` (trace.c:261), the platform path limit. -/
def PATH_MAX : Nat := 4096

/-! ### Claim C1: single-digit destinations -/

/-- C1 counterexample: with the trace key set to the single digit "0",
destination resolution yields the disabled sentinel (fd 0, the first
test of `get_trace_fd` catches "0" before the digit rule), and the
emitting call performs no write at all — not an InheritedDescriptor(0)
written to, as the claim states for every digit including "0". -/
theorem C1_counterexample :
    (get_trace_fd ⟨fun _ => some "0", fun _ => none, "", true⟩
        "GIT_TRACE").fd = 0 ∧
    (do_trace_print ⟨fun _ => some "0", fun _ => none, "", true⟩
        (fun _ => none) "GIT_TRACE" "x").effects = [.envRead "GIT_TRACE"] := by
  constructor <;> rfl

/-- C1 amended: only for digits 2-9 does resolution yield an inherited
descriptor of exactly that number (with no close and no diagnostics),
and the emit then attempts a write to that descriptor; "0" is caught by
the disabled rule and "1" by the stderr rule first. -/
theorem C1_digit_destination (sys : Sys) (fs : String → Option String)
    (key buf : String) (d : Nat) (h2 : 2 ≤ d) (h9 : d ≤ 9)
    (henv : sys.env key = some (digitStr d)) :
    get_trace_fd sys key = ⟨d, false, [.envRead key]⟩ ∧
    Effect.writeFd d buf ∈ (do_trace_print sys fs key buf).effects := by
  have hfd : get_trace_fd sys key = ⟨d, false, [.envRead key]⟩ := by
    interval_cases d <;> (unfold get_trace_fd; rw [henv]; rfl)
  refine ⟨hfd, ?_⟩
  have hd0 : d ≠ 0 := by omega
  cases hw : sys.writeOk <;>
    simp [do_trace_print, hfd, hw, hd0, Ne.symm hd0]

/-- Witness for C1_digit_destination at digit 7. -/
theorem C1_digit_destination_witness :
    get_trace_fd ⟨fun _ => some "7", fun _ => none, "", true⟩ "GIT_TRACE"
      = ⟨7, false, [.envRead "GIT_TRACE"]⟩ ∧
    Effect.writeFd 7 "x" ∈ (do_trace_print
      ⟨fun _ => some "7", fun _ => none, "", true⟩ (fun _ => none)
      "GIT_TRACE" "x").effects :=
  C1_digit_destination ⟨fun _ => some "7", fun _ => none, "", true⟩
    (fun _ => none) "GIT_TRACE" "x" 7 (by decide) (by decide) rfl

/-! ### Claim C5: malformed (non-path) values -/

/-- C5 counterexample: with the key set to "banana", the stderr
diagnostic of `get_trace_fd` consists of three newline-terminated lines,
not the two the claim states (two lines explain the malformed value and
a third announces the fallback), before falling back to stderr (fd 2). -/
theorem C5_counterexample :
    countNL (stderrText (get_trace_fd
        ⟨fun _ => some "banana", fun _ => none, "", true⟩
        "GIT_TRACE").effects) = 3 ∧
    (get_trace_fd ⟨fun _ => some "banana", fun _ => none, "", true⟩
        "GIT_TRACE").fd = STDERR_FILENO := by
  constructor <;> rfl

/-- Newline counting distributes over string concatenation. -/
theorem countNL_append (a b : String) :
    countNL (a ++ b) = countNL a + countNL b := by
  cases a with
  | mk da =>
    cases b with
    | mk db =>
      show (da ++ db).countP _ = _
      simp [countNL, List.countP_append]

/-- C5 amended: every non-empty, non-disabling, non-"1"/"true",
non-single-digit, non-absolute-path value produces exactly one
three-line diagnostic on standard error (two lines saying the value is
malformed and must be an absolute path, one announcing the fallback)
and resolution falls back to the standard-error descriptor; the count
of three lines assumes the value and the key themselves contain no
newline characters (each is interpolated into the diagnostic text). -/
theorem C5_malformed_value (sys : Sys) (key v : String)
    (henv : sys.env key = some v)
    (hne : (v == "" || v == "0" || strcaseEq v "false") = false)
    (h1 : (v == "1" || strcaseEq v "true") = false)
    (hdig : (v.length == 1 && isdigitC (firstChar v)) = false)
    (habs : is_absolute_path v = false)
    (hvnl : countNL v = 0) (hknl : countNL key = 0) :
    get_trace_fd sys key =
      ⟨STDERR_FILENO, false,
        [.envRead key, .errOut (whatMsg v key), .errOut (adviceMsg key),
         .errOut defaultingMsg]⟩ ∧
    countNL (stderrText (get_trace_fd sys key).effects) = 3 := by
  have hfd : get_trace_fd sys key =
      ⟨STDERR_FILENO, false,
        [.envRead key, .errOut (whatMsg v key), .errOut (adviceMsg key),
         .errOut defaultingMsg]⟩ := by
    simp [get_trace_fd, henv, hne, h1, hdig, habs]
  refine ⟨hfd, ?_⟩
  rw [hfd]
  show countNL (whatMsg v key ++ (adviceMsg key ++ (defaultingMsg ++ ""))) = 3
  simp only [whatMsg, adviceMsg, countNL_append, hvnl, hknl]
  decide

/-! ### Claim C7: owned-file destinations -/

/-- A value starting with '/' falls through every guard of
`get_trace_fd` that precedes the absolute-path branch. -/
theorem abs_path_guards (p : String) (h : firstChar p = '/') :
    (p == "" || p == "0" || strcaseEq p "false") = false ∧
    (p == "1" || strcaseEq p "true") = false ∧
    (p.length == 1 && isdigitC (firstChar p)) = false ∧
    is_absolute_path p = true := by
  obtain ⟨data⟩ := p
  cases data with
  | nil => exact absurd h (by decide)
  | cons c cs =>
    have hc : c = '/' := h
    subst hc
    refine ⟨?_, ?_, ?_, ?_⟩
    · rfl
    · rfl
    · show (_ && isdigitC (firstChar ⟨'/' :: cs⟩)) = false
      rw [show firstChar ⟨'/' :: cs⟩ = '/' from rfl]
      exact Bool.and_false _
    · rfl

/-- `get_trace_fd` on an absolute-path value whose open succeeds:
the opened descriptor with `need_close` set and no diagnostics. -/
theorem get_trace_fd_ownedFile (sys : Sys) (key p : String) (fd : Nat)
    (henv : sys.env key = some p) (habs : firstChar p = '/')
    (hopen : sys.openFd p = some fd) :
    get_trace_fd sys key = ⟨fd, true, [.envRead key, .openPath p]⟩ := by
  obtain ⟨g1, g2, g3, g4⟩ := abs_path_guards p habs
  simp [get_trace_fd, henv, g1, g2, g3, g4, hopen]

/-- C7 counterexample: when `open` succeeds but hands back descriptor 0
(possible whenever standard input was closed before the call), the
emitting call mistakes the owned descriptor for the disabled sentinel:
nothing is written and — contradicting the claim that the opened
descriptor is closed before the call returns on every path — no close
happens, so the descriptor leaks. -/
theorem C7_counterexample :
    Effect.openPath "/t" ∈ (do_trace_print
        ⟨fun _ => some "/t", fun _ => some 0, "", true⟩
        (fun _ => none) "GIT_TRACE" "x").effects ∧
    Effect.closeFd 0 ∉ (do_trace_print
        ⟨fun _ => some "/t", fun _ => some 0, "", true⟩
        (fun _ => none) "GIT_TRACE" "x").effects ∧
    (do_trace_print ⟨fun _ => some "/t", fun _ => some 0, "", true⟩
        (fun _ => none) "GIT_TRACE" "x").effects =
      [.envRead "GIT_TRACE", .openPath "/t"] := by
  refine ⟨?_, ?_, ?_⟩ <;> decide

/-- C7 amended: for an absolute-path destination whose open succeeds
with a nonzero descriptor, a successful call opens the file for append
(creating it: absent files start from empty content), writes the whole
line after the existing content, and closes the descriptor; two
successive calls append both lines in call order without truncating
prior content; and whether or not the write succeeds, the opened
descriptor is always closed before the call returns.  (When open hands
back descriptor 0 the call instead drops the line and leaks the
descriptor.) -/
theorem C7_ownedFile_append_close (env : String → Option String)
    (openFd : String → Option Nat) (em : String) (fs : String → Option String)
    (key p l1 l2 : String) (fd : Nat)
    (henv : env key = some p) (habs : firstChar p = '/')
    (hopen : openFd p = some fd) (hfd : fd ≠ 0) :
    (do_trace_print ⟨env, openFd, em, true⟩ fs key l1).effects =
      [.envRead key, .openPath p, .writeFd fd l1, .closeFd fd] ∧
    (do_trace_print ⟨env, openFd, em, true⟩ fs key l1).fs p =
      some ((fs p).getD "" ++ l1) ∧
    (do_trace_print ⟨env, openFd, em, true⟩
        (do_trace_print ⟨env, openFd, em, true⟩ fs key l1).fs key l2).fs p =
      some ((fs p).getD "" ++ l1 ++ l2) ∧
    (∀ wk : Bool, Effect.closeFd fd ∈
      (do_trace_print ⟨env, openFd, em, wk⟩ fs key l1).effects) := by
  have hres : ∀ wk : Bool, get_trace_fd ⟨env, openFd, em, wk⟩ key =
      ⟨fd, true, [.envRead key, .openPath p]⟩ :=
    fun wk => get_trace_fd_ownedFile ⟨env, openFd, em, wk⟩ key p fd henv habs hopen
  have hstep : ∀ fs' : String → Option String,
      do_trace_print ⟨env, openFd, em, true⟩ fs' key l1 =
        ⟨[.envRead key, .openPath p, .writeFd fd l1, .closeFd fd],
         setFile fs' p ((fs' p).getD "" ++ l1)⟩ := by
    intro fs'
    simp [do_trace_print, hres true, hfd, henv]
  have hstep2 : ∀ fs' : String → Option String,
      do_trace_print ⟨env, openFd, em, true⟩ fs' key l2 =
        ⟨[.envRead key, .openPath p, .writeFd fd l2, .closeFd fd],
         setFile fs' p ((fs' p).getD "" ++ l2)⟩ := by
    intro fs'
    simp [do_trace_print, hres true, hfd, henv]
  refine ⟨by rw [hstep], ?_, ?_, ?_⟩
  · rw [hstep]
    show setFile fs p ((fs p).getD "" ++ l1) p = _
    simp [setFile]
  · rw [hstep, hstep2]
    show setFile _ p _ p = _
    simp [setFile]
  · intro wk
    cases wk <;> simp [do_trace_print, hres, hfd, henv]

/-- Witness for C7_ownedFile_append_close at a concrete path. -/
theorem C7_ownedFile_append_close_witness :
    (do_trace_print ⟨fun _ => some "/tmp/t.log", fun _ => some 5, "", true⟩
        (fun _ => none) "K" "a\n").effects =
      [.envRead "K", .openPath "/tmp/t.log", .writeFd 5 "a\n",
       .closeFd 5] ∧
    (do_trace_print ⟨fun _ => some "/tmp/t.log", fun _ => some 5, "", true⟩
        (fun _ => none) "K" "a\n").fs "/tmp/t.log" =
      some (((fun (_ : String) => (none : Option String)) "/tmp/t.log").getD ""
        ++ "a\n") ∧
    (do_trace_print ⟨fun _ => some "/tmp/t.log", fun _ => some 5, "", true⟩
        (do_trace_print ⟨fun _ => some "/tmp/t.log", fun _ => some 5, "", true⟩
          (fun _ => none) "K" "a\n").fs "K" "b\n").fs "/tmp/t.log" =
      some (((fun (_ : String) => (none : Option String)) "/tmp/t.log").getD ""
        ++ "a\n" ++ "b\n") ∧
    (∀ wk : Bool, Effect.closeFd 5 ∈
      (do_trace_print ⟨fun _ => some "/tmp/t.log", fun _ => some 5, "", wk⟩
        (fun _ => none) "K" "a\n").effects) :=
  C7_ownedFile_append_close (fun _ => some "/tmp/t.log") (fun _ => some 5)
    "" (fun _ => none) "K" "/tmp/t.log" "a\n" "b\n" 5 rfl rfl rfl
    (by decide)

/-- Witness for C5_malformed_value at value "banana". -/
theorem C5_malformed_value_witness :
    get_trace_fd ⟨fun _ => some "banana", fun _ => none, "", true⟩ "K" =
      ⟨STDERR_FILENO, false,
        [.envRead "K", .errOut (whatMsg "banana" "K"),
         .errOut (adviceMsg "K"), .errOut defaultingMsg]⟩ ∧
    countNL (stderrText (get_trace_fd
      ⟨fun _ => some "banana", fun _ => none, "", true⟩ "K").effects) = 3 :=
  C5_malformed_value ⟨fun _ => some "banana", fun _ => none, "", true⟩
    "K" "banana" rfl (by decide) (by decide) (by decide) (by decide)
    (by decide) (by decide)

/-! ### Claim C3: trailing-newline normalization -/

/-- String concatenation concatenates the underlying character data. -/
theorem str_data_append (a b : String) : (a ++ b).data = a.data ++ b.data := by
  cases a
  cases b
  rfl

/-- C3 counterexample: an active call whose caller message already ends
in two newlines emits a line ending in two newlines — `print_trace_line`
only ever appends a missing newline, it never collapses existing ones,
so the claim that every emitted line ends in exactly one trailing
newline is false. -/
theorem C3_counterexample :
    (trace_printf_key ⟨fun _ => some "1", fun _ => none, "", true⟩
        (fun _ => none) ⟨12, 0, 0, 0⟩ "K" "hi\n\n").effects =
      [.envRead "K", .clockRead, .fmtCall, .envRead "K",
       .writeFd 2 "12:00:00.000000 hi\n\n"] ∧
    trailNL "12:00:00.000000 hi\n\n" = 2 := by
  constructor <;> rfl

/-- C3 amended: finalization appends a newline iff the buffer's last
character is not already a newline, so every emitted line ends in at
least one newline; a message already ending in k ≥ 1 newlines is
emitted with those k newlines intact, hence the number of trailing
newlines of the finalized line is `max 1` of the buffer's. -/
theorem C3_newline_normalization (buf : String) (hne : buf.data ≠ []) :
    (buf.data.getLast? ≠ some '\n' → fix_newline buf = buf ++ "\n") ∧
    (buf.data.getLast? = some '\n' → fix_newline buf = buf) ∧
    trailNL (fix_newline buf) = max 1 (trailNL buf) := by
  obtain ⟨c, hc⟩ : ∃ c, buf.data.getLast? = some c := by
    cases h : buf.data.getLast? with
    | none => exact absurd (List.getLast?_eq_none_iff.mp h) hne
    | some c => exact ⟨c, rfl⟩
  have hrev : buf.data.reverse.head? = some c := by
    rw [List.head?_reverse, hc]
  obtain ⟨t, ht⟩ : ∃ t, buf.data.reverse = c :: t := by
    cases h : buf.data.reverse with
    | nil => rw [h] at hrev; exact absurd hrev (by simp)
    | cons x xs =>
      have hx : x = c := by
        rw [h] at hrev
        exact Option.some.inj hrev
      exact ⟨xs, by rw [hx]⟩
  by_cases hnl : c = '\n'
  · subst hnl
    have hfix : fix_newline buf = buf := by
      unfold fix_newline
      rw [hc]
      simp
    refine ⟨fun h => absurd hc h, fun _ => hfix, ?_⟩
    rw [hfix]
    have : trailNL buf = trailNLAux t + 1 := by
      unfold trailNL
      rw [ht]
      simp [trailNLAux]
    omega
  · have hfix : fix_newline buf = buf ++ "\n" := by
      unfold fix_newline
      rw [hc]
      simp [hnl]
    have htb : trailNL buf = 0 := by
      unfold trailNL
      rw [ht]
      simp [trailNLAux, hnl]
    have hta : trailNL (buf ++ "\n") = 1 := by
      unfold trailNL
      rw [str_data_append]
      show trailNLAux ((buf.data ++ ['\n']).reverse) = 1
      rw [List.reverse_append]
      show trailNLAux ('\n' :: buf.data.reverse) = 1
      rw [ht]
      simp [trailNLAux, hnl]
    refine ⟨fun _ => hfix, fun h => absurd (h.symm.trans hc |>.symm) ?_, ?_⟩
    · intro he
      exact hnl (Option.some.inj he)
    · rw [hfix, hta, htb]
      omega

/-- Witness for C3_newline_normalization on a buffer not ending in a
newline. -/
theorem C3_newline_normalization_witness :
    fix_newline "ts x" = "ts x" ++ "\n" ∧
    trailNL (fix_newline "ts x") = max 1 (trailNL "ts x") :=
  ⟨(C3_newline_normalization "ts x" (by decide)).1 (by decide),
   (C3_newline_normalization "ts x" (by decide)).2.2⟩

/-! ### Claims C4 and C9: the getnanotime state machine -/

/-- C4 counterexample: on a first call where the wall clock and the
(non-zero) monotonic clock happen to read the same value, the computed
offset is 0, so nothing is persisted (the state stays "uninitialized")
and the next call reads the wall clock and calibrates all over again —
calibration is not "at most once per process" as the claim states. -/
theorem C4_counterexample :
    getnanotime_step 0 5 5 = ⟨5, 0, true, true⟩ ∧
    getnanotime_step (getnanotime_step 0 5 5).offset 10 3 =
      ⟨10, 7, true, true⟩ := by
  constructor <;> rfl

/-- C4 amended: on a first call with a non-zero monotonic reading, both
clocks are read, `wall - mono` (uint64 subtraction) is stored and the
wall-clock value returned; the stored value persists and every later
call returns `offset + mono` without a wall-clock read only when the
computed offset is at least 2 (offset 0 re-calibrates, offset 1 means
permanent fallback); and when the monotonic counter is unavailable the
fallback to wall-clock reads is permanent. -/
theorem C4_clock_calibration (wall mono w2 m2 : Nat) :
    (mono ≠ 0 → getnanotime_step 0 wall mono =
      ⟨wall, sub64 wall mono, true, true⟩) ∧
    (mono ≠ 0 → 2 ≤ sub64 wall mono →
      getnanotime_step (sub64 wall mono) w2 m2 =
        ⟨(sub64 wall mono + m2) % U64, sub64 wall mono, false, true⟩) ∧
    (mono = 0 → getnanotime_step 0 wall mono = ⟨wall, 1, true, true⟩ ∧
      getnanotime_step 1 w2 m2 = ⟨w2, 1, true, false⟩) := by
  refine ⟨fun hm => ?_, fun _ h2 => ?_, fun hm => ⟨?_, ?_⟩⟩
  · simp [getnanotime_step, hm]
  · have : 1 < sub64 wall mono := by omega
    simp [getnanotime_step, this]
  · simp [getnanotime_step, hm]
  · simp [getnanotime_step]

/-- Witness for C4_clock_calibration at wall 10, mono 3. -/
theorem C4_clock_calibration_witness :
    getnanotime_step 0 10 3 = ⟨10, sub64 10 3, true, true⟩ ∧
    getnanotime_step (sub64 10 3) 20 6 =
      ⟨(sub64 10 3 + 6) % U64, sub64 10 3, false, true⟩ :=
  ⟨(C4_clock_calibration 10 3 20 6).1 (by decide),
   (C4_clock_calibration 10 3 20 6).2.1 (by decide) (by decide)⟩

/-- C9 confirmed: the clock's calibrated state is encoded in the offset
value itself — 0 means uninitialized, 1 means failed.  If the computed
first-call offset is 0 the state is left uninitialized, so the next
call reads the wall clock and re-runs calibration; if it is 1 every
later call permanently falls back to wall-clock reads even though the
monotonic counter works; the calibrated branch is entered exactly when
the stored offset is at least 2. -/
theorem C9_offset_sentinels (wall mono w2 m2 : Nat) (hm : mono ≠ 0) :
    (sub64 wall mono = 0 →
      (getnanotime_step 0 wall mono).offset = 0 ∧
      (getnanotime_step (getnanotime_step 0 wall mono).offset w2 m2).readWall
        = true ∧
      (getnanotime_step (getnanotime_step 0 wall mono).offset w2 m2).readMono
        = true) ∧
    (sub64 wall mono = 1 →
      (getnanotime_step 0 wall mono).offset = 1 ∧
      getnanotime_step (getnanotime_step 0 wall mono).offset w2 m2 =
        ⟨w2, 1, true, false⟩) ∧
    (1 < (getnanotime_step 0 wall mono).offset ↔ 2 ≤ sub64 wall mono) := by
  have hstep : getnanotime_step 0 wall mono =
      ⟨wall, sub64 wall mono, true, true⟩ := by
    simp [getnanotime_step, hm]
  refine ⟨fun h0 => ?_, fun h1 => ?_, ?_⟩
  · rw [hstep]
    simp only [h0]
    by_cases hm2 : m2 = 0 <;> simp [getnanotime_step, hm2]
  · rw [hstep]
    simp [getnanotime_step, h1]
  · rw [hstep]
    show 1 < sub64 wall mono ↔ 2 ≤ sub64 wall mono
    omega

/-- Witness for C9_offset_sentinels where the computed offset is 0. -/
theorem C9_offset_sentinels_witness :
    (getnanotime_step 0 5 5).offset = 0 ∧
    (getnanotime_step (getnanotime_step 0 5 5).offset 9 4).readWall = true :=
  ⟨((C9_offset_sentinels 5 5 9 4 (by decide)).1 (by decide)).1,
   ((C9_offset_sentinels 5 5 9 4 (by decide)).1 (by decide)).2.1⟩

/-! ### Claim C2: the command timer -/

/-- C2 counterexample: two `trace_command_performance` calls with the
performance key active.  After the second call the recorded command
line is the second argv's quoting (different from the first) and the
recorded start time is the second call's clock value (6, not the first
call's 5): every call overwrites the pair, so the exit-time report uses
the last invocation's argv and timestamp, not the first's as the claim
states.  Only the hook registration (1) is one-shot. -/
theorem C2_counterexample :
    (trace_command_performance ⟨fun _ => some "1", fun _ => none, "", true⟩
        (trace_command_performance ⟨fun _ => some "1", fun _ => none, "", true⟩
          0 5 3 ["a"] ⟨0, "", 0⟩).2 9 4 ["b"]
        (trace_command_performance ⟨fun _ => some "1", fun _ => none, "", true⟩
          0 5 3 ["a"] ⟨0, "", 0⟩).1).1 =
      ⟨6, sq_quote_argv ["b"], 1⟩ ∧
    sq_quote_argv ["b"] ≠ sq_quote_argv ["a"] ∧
    (trace_command_performance ⟨fun _ => some "1", fun _ => none, "", true⟩
        0 5 3 ["a"] ⟨0, "", 0⟩).1.commandStartTime = 5 := by
  refine ⟨?_, ?_, ?_⟩ <;> decide

/-- C2 amended: with the performance key active and a fresh process
state, two calls register exactly one exit hook (provided the clock
value recorded by the first call is non-zero), but the
`(start_time, command_line)` pair is overwritten by every call — after
the second call it holds the second invocation's clock value and quoted
argv, which is what the exit-time report consumes. -/
theorem C2_one_hook_last_call_wins (sys : Sys) (st0 : CmdPerf)
    (o0 w1 m1 w2 m2 : Nat) (a1 a2 : List String)
    (hact : trace_want sys.env GIT_TRACE_PERFORMANCE = true)
    (h0 : st0.commandStartTime = 0)
    (hnz : (getnanotime_step o0 w1 m1).ret ≠ 0) :
    (trace_command_performance sys
        (trace_command_performance sys o0 w1 m1 a1 st0).2 w2 m2 a2
        (trace_command_performance sys o0 w1 m1 a1 st0).1).1 =
      ⟨(getnanotime_step (getnanotime_step o0 w1 m1).offset w2 m2).ret,
       sq_quote_argv a2, st0.hooks + 1⟩ := by
  have h1 : trace_command_performance sys o0 w1 m1 a1 st0 =
      (⟨(getnanotime_step o0 w1 m1).ret, sq_quote_argv a1, st0.hooks + 1⟩,
       (getnanotime_step o0 w1 m1).offset) := by
    simp [trace_command_performance, hact, h0]
  rw [h1]
  simp [trace_command_performance, hact, hnz]

/-- Witness for C2_one_hook_last_call_wins. -/
theorem C2_one_hook_last_call_wins_witness :
    (trace_command_performance ⟨fun _ => some "1", fun _ => none, "", true⟩
        (trace_command_performance ⟨fun _ => some "1", fun _ => none, "", true⟩
          0 5 3 ["x"] ⟨0, "", 0⟩).2 9 4 ["y"]
        (trace_command_performance ⟨fun _ => some "1", fun _ => none, "", true⟩
          0 5 3 ["x"] ⟨0, "", 0⟩).1).1 =
      ⟨(getnanotime_step (getnanotime_step 0 5 3).offset 9 4).ret,
       sq_quote_argv ["y"], 0 + 1⟩ :=
  C2_one_hook_last_call_wins ⟨fun _ => some "1", fun _ => none, "", true⟩
    ⟨0, "", 0⟩ 0 5 3 9 4 ["x"] ["y"] (by decide) rfl (by decide)

/-! ### Claim C6: disabled keys are no-ops -/

/-- Every `getnanotime` call reads at least one clock. -/
theorem clockRead_mem_gnEffects (offset wall mono : Nat) :
    Effect.clockRead ∈ gnEffects (getnanotime_step offset wall mono) := by
  unfold getnanotime_step
  split_ifs <;> simp [gnEffects]

/-- C6 counterexample: with every trace key unset, a
`trace_performance_since` call still reads the clock (its
`getnanotime()` argument is evaluated before the key is consulted, and
its return value is another `getnanotime()`), so "no syscall beyond the
environment lookup" is false for performance reporting. -/
theorem C6_counterexample :
    disabledVal ((fun (_ : String) => (none : Option String))
      GIT_TRACE_PERFORMANCE) = true ∧
    Effect.clockRead ∈ (trace_performance_since
        ⟨fun _ => none, fun _ => none, "", true⟩ (fun _ => none)
        ⟨0, 0, 0, 0⟩ 0 5 3 9 4 2 none "").1.effects := by
  refine ⟨rfl, ?_⟩
  decide

/-- C6 amended: a disabled key makes every trace call emit nothing and
format nothing, touching no file: `trace_printf`, `trace_printf_key`,
`trace_argv_printf` and `trace_strbuf` perform exactly the one
environment lookup and nothing else; `trace_performance` and
`trace_performance_since`, however, additionally perform their
`getnanotime` clock reads (before and/or after the disabled check) even
though they too format nothing and write nothing. -/
theorem C6_disabled_noop (sys : Sys) (fs : String → Option String)
    (now : Tod) (key msg data : String) (argv : List String)
    (offset wall mono w2 m2 start nanos : Nat) (fmt : Option String)
    (hk : disabledVal (sys.env key) = true)
    (hg : disabledVal (sys.env "GIT_TRACE") = true)
    (hp : disabledVal (sys.env GIT_TRACE_PERFORMANCE) = true) :
    trace_printf_key sys fs now key msg = ⟨[.envRead key], fs⟩ ∧
    trace_printf sys fs now msg = ⟨[.envRead "GIT_TRACE"], fs⟩ ∧
    trace_strbuf sys fs now key data = ⟨[.envRead key], fs⟩ ∧
    trace_argv_printf sys fs now argv msg = ⟨[.envRead "GIT_TRACE"], fs⟩ ∧
    ((trace_performance sys fs now offset wall mono nanos fmt msg).1.effects
        = [.envRead GIT_TRACE_PERFORMANCE] ++
          gnEffects (getnanotime_step offset wall mono) ∧
      (trace_performance sys fs now offset wall mono nanos fmt msg).1.fs
        = fs) ∧
    ((trace_performance_since sys fs now offset wall mono w2 m2 start fmt
        msg).1.effects
        = gnEffects (getnanotime_step offset wall mono) ++
          [.envRead GIT_TRACE_PERFORMANCE] ++
          gnEffects (getnanotime_step
            (getnanotime_step offset wall mono).offset w2 m2) ∧
      (trace_performance_since sys fs now offset wall mono w2 m2 start fmt
        msg).1.fs = fs) := by
  refine ⟨?_, ?_, ?_, ?_, ⟨?_, ?_⟩, ⟨?_, ?_⟩⟩ <;>
    simp [trace_printf_key, trace_printf, trace_strbuf, trace_argv_printf,
      trace_vprintf_fl, trace_strbuf_fl, trace_argv_vprintf_fl,
      trace_performance, trace_performance_since, trace_performance_vfl,
      trace_want, hk, hg, hp]

/-- Witness for C6_disabled_noop with all keys unset. -/
theorem C6_disabled_noop_witness :
    trace_printf_key ⟨fun _ => none, fun _ => none, "", true⟩
      (fun _ => none) ⟨1, 2, 3, 4⟩ "K" "m" =
      ⟨[.envRead "K"], fun _ => none⟩ ∧
    (trace_performance ⟨fun _ => none, fun _ => none, "", true⟩
        (fun _ => none) ⟨1, 2, 3, 4⟩ 0 7 5 100 none "m").1.effects =
      [.envRead GIT_TRACE_PERFORMANCE] ++
        gnEffects (getnanotime_step 0 7 5) :=
  ⟨(C6_disabled_noop ⟨fun _ => none, fun _ => none, "", true⟩
      (fun _ => none) ⟨1, 2, 3, 4⟩ "K" "m" "" [] 0 7 5 0 0 0 100 none
      rfl rfl rfl).1,
   ((C6_disabled_noop ⟨fun _ => none, fun _ => none, "", true⟩
      (fun _ => none) ⟨1, 2, 3, 4⟩ "K" "m" "" [] 0 7 5 0 0 0 100 none
      rfl rfl rfl).2.2.2.2.1).1⟩

/-! ### Claim C8: the performance payload -/

/-- String concatenation is associative. -/
theorem str_append_assoc (a b c : String) :
    a ++ b ++ c = a ++ (b ++ c) := by
  cases a
  cases b
  cases c
  show String.mk _ = String.mk _
  exact congrArg String.mk (List.append_assoc _ _ _)

/-- C8 counterexample: for the duration D = 2^63 nanoseconds the payload
renders the binary64 approximation of D/1e9, whose 9-fractional-digit
decimal differs from the exact value of D/1e9 — the claim's "D / 1e9
seconds rendered with exactly 9 fractional digits" does not hold for
large durations, because the uint64-to-double conversion and the
division cannot represent D/1e9 to within half of 10^-9. -/
theorem C8_counterexample :
    perf_payload (2 ^ 63) none "" ≠
      "performance: " ++ render9 (2 ^ 63) ++ " s" ∧
    perf_payload (2 ^ 63) none "" = "performance: 9223372036.854776382 s" ∧
    render9 (2 ^ 63) = "9223372036.854775808" := by
  refine ⟨?_, ?_, ?_⟩ <;> decide

/-- C8 amended: whenever the double-rounded value of D/1e9 re-renders
to exactly D (true for all small durations, false for large ones such
as 2^63), the payload is the string "performance: ", then D/1e9 seconds
with exactly 9 fractional digits, then " s", then ": " and the caller
message exactly when a non-NULL, non-empty format string was supplied;
the payload is a function of D and the message alone (no clock is
consulted while building it). -/
theorem C8_perf_payload_digits (nanos : Nat) (msg f : String)
    (hfaithful : printf9Int (doubleDivPow9 (natToDouble nanos)) = nanos) :
    perf_payload nanos none msg = "performance: " ++ render9 nanos ++ " s" ∧
    perf_payload nanos (some "") msg =
      "performance: " ++ render9 nanos ++ " s" ∧
    (f ≠ "" → perf_payload nanos (some f) msg =
      "performance: " ++ render9 nanos ++ " s" ++ (": " ++ msg)) := by
  refine ⟨?_, ?_, fun hf => ?_⟩
  · simp [perf_payload, printf9, hfaithful]
  · simp [perf_payload, printf9, hfaithful]
  · simp [perf_payload, printf9, hfaithful, str_append_assoc, hf]

/-- Witness for C8_perf_payload_digits at D = 1500000000 ns (1.5 s). -/
theorem C8_perf_payload_digits_witness :
    perf_payload 1500000000 none "m" =
      "performance: " ++ render9 1500000000 ++ " s" ∧
    perf_payload 1500000000 (some "") "m" =
      "performance: " ++ render9 1500000000 ++ " s" ∧
    ("x" ≠ "" → perf_payload 1500000000 (some "x") "m" =
      "performance: " ++ render9 1500000000 ++ " s" ++ (": " ++ "m")) :=
  C8_perf_payload_digits 1500000000 "m" "x" (by decide)

/-! ### Claim C10: quote_crnl -/

/-- The escaped output of a cons is the escape of the head followed by
the escaped tail. -/
theorem escOut_cons (c : Char) (cs : List Char) :
    escOut (c :: cs) = escChars c ++ escOut cs := rfl

/-- Each input byte contributes one byte, or two if it is a backslash,
CR or LF. -/
theorem escChars_length (c : Char) :
    (escChars c).length = if isSpecialC c then 2 else 1 := by
  by_cases h1 : c = '\\' <;> by_cases h2 : c = '\n' <;>
    by_cases h3 : c = '\r' <;>
    simp [escChars, pairEsc, isSpecialC, h1, h2, h3]

/-- The bytes stored by the `quote_crnl` loop are exactly the escaped
output followed by the terminating NUL. -/
theorem quote_crnl_stores_snd (p : List Char) :
    ∀ i, (quote_crnl_stores p i).map Prod.snd = escOut p ++ ['\x00'] := by
  induction p with
  | nil => intro i; rfl
  | cons c cs ih =>
    intro i
    rw [escOut_cons]
    cases hpe : pairEsc c with
    | mk a ob =>
      cases ob with
      | none =>
        simp [quote_crnl_stores, hpe, escChars, ih (i + 1)]
      | some b =>
        simp [quote_crnl_stores, hpe, escChars, ih (i + 2)]

/-- Every store of the `quote_crnl` loop started at index `i` lands in
`[i, i + escLen p]`. -/
theorem quote_crnl_stores_fst_le (p : List Char) :
    ∀ i s, s ∈ quote_crnl_stores p i → i ≤ s.1 ∧ s.1 ≤ i + escLen p := by
  induction p with
  | nil =>
    intro i s hs
    simp [quote_crnl_stores] at hs
    subst hs
    simp [escLen, escOut]
  | cons c cs ih =>
    intro i s hs
    have hlen : escLen (c :: cs) = (escChars c).length + escLen cs := by
      simp [escLen, escOut_cons]
    cases hpe : pairEsc c with
    | mk a ob =>
      have hec : (escChars c).length = (if ob.isSome then 2 else 1) := by
        cases ob <;> simp [escChars, hpe]
      cases ob with
      | none =>
        rw [quote_crnl_stores, hpe] at hs
        rcases List.mem_cons.mp hs with h | h
        · subst h; simp at hec; omega
        · have := ih (i + 1) s h
          simp at hec
          omega
      | some b =>
        rw [quote_crnl_stores, hpe] at hs
        rcases List.mem_cons.mp hs with h | h
        · subst h; simp at hec; omega
        · rcases List.mem_cons.mp h with h2 | h2
          · subst h2; simp at hec; omega
          · have := ih (i + 2) s h2
            simp at hec
            omega

/-- The terminating NUL is stored at index `i + escLen p`. -/
theorem quote_crnl_stores_nul (p : List Char) :
    ∀ i, (i + escLen p, '\x00') ∈ quote_crnl_stores p i := by
  induction p with
  | nil =>
    intro i
    simp [quote_crnl_stores, escLen, escOut]
  | cons c cs ih =>
    intro i
    have hlen : escLen (c :: cs) = (escChars c).length + escLen cs := by
      simp [escLen, escOut_cons]
    cases hpe : pairEsc c with
    | mk a ob =>
      have hec : (escChars c).length = (if ob.isSome then 2 else 1) := by
        cases ob <;> simp [escChars, hpe]
      cases ob with
      | none =>
        rw [quote_crnl_stores, hpe]
        simp at hec
        have : i + escLen (c :: cs) = (i + 1) + escLen cs := by omega
        rw [this]
        exact List.mem_cons_of_mem _ (ih (i + 1))
      | some b =>
        rw [quote_crnl_stores, hpe]
        simp at hec
        have : i + escLen (c :: cs) = (i + 2) + escLen cs := by omega
        rw [this]
        exact List.mem_cons_of_mem _ (List.mem_cons_of_mem _ (ih (i + 2)))

/-- C10 confirmed: `quote_crnl` stores the escaped string byte by byte
with no bounds check — each backslash, CR or LF in the input expands to
two output bytes (every other byte to one); the bytes stored are
exactly the correctly escaped output terminated by NUL; every store
stays inside a `PM`-byte buffer precisely when the escaped length is
strictly less than `PM` (for longer inputs some store lands at an index
at or past `PM`, i.e. past the end of the PATH_MAX buffer); and a NULL
input returns NULL rather than the "(null)" substitution. -/
theorem C10_quote_crnl (p : List Char) (PM : Nat) :
    quote_crnl none = none ∧
    escLen p = p.length + p.countP isSpecialC ∧
    (quote_crnl_stores p 0).map Prod.snd = escOut p ++ ['\x00'] ∧
    ((∀ s ∈ quote_crnl_stores p 0, s.1 < PM) ↔ escLen p < PM) := by
  refine ⟨rfl, ?_, quote_crnl_stores_snd p 0, ?_⟩
  · induction p with
    | nil => rfl
    | cons c cs ih =>
      have hlen : escLen (c :: cs) = (escChars c).length + escLen cs := by
        simp [escLen, escOut_cons]
      rw [hlen, escChars_length, ih, List.countP_cons]
      by_cases h : isSpecialC c <;> simp [h] <;> omega
  · constructor
    · intro hall
      have := hall _ (quote_crnl_stores_nul p 0)
      simpa using this
    · intro hlt s hs
      have := quote_crnl_stores_fst_le p 0 s hs
      omega

/-- Witness for C10_quote_crnl on the input "a\n" with the PATH_MAX
buffer. -/
theorem C10_quote_crnl_witness :
    escLen ['a', '\n'] = ['a', '\n'].length + List.countP isSpecialC ['a', '\n'] ∧
    (quote_crnl_stores ['a', '\n'] 0).map Prod.snd =
      escOut ['a', '\n'] ++ ['\x00'] ∧
    ((∀ s ∈ quote_crnl_stores ['a', '\n'] 0, s.1 < PATH_MAX) ↔
      escLen ['a', '\n'] < PATH_MAX) :=
  ⟨(C10_quote_crnl ['a', '\n'] PATH_MAX).2.1,
   (C10_quote_crnl ['a', '\n'] PATH_MAX).2.2.1,
   (C10_quote_crnl ['a', '\n'] PATH_MAX).2.2.2⟩
